import Mathlib

/-!
# Verification of the skid-steer PID heading controller

A shallow embedding of the control core of `pid_sim_streamlit.py`
(class `SkidSteerPIDSimulator`).  Python floats are modelled as exact
rationals `ℚ`; Python's float `%` with a positive modulus is modelled by
`pymod` (result in `[0, m)` for `m > 0`, matching CPython's sign-of-divisor
semantics); the wall clock value `time.time()` is passed in as an explicit
`now : ℚ` argument wherever the source reads it.  Every definition below
mirrors the corresponding Python method line by line.
-/

namespace PidSim

/-- The loop `while error > 180: error -= 360` from `calculate_pid_output`
(lines 44-45 of the source). -/
def wrapDown (e : ℚ) : ℚ :=
  if 180 < e then wrapDown (e - 360) else e
termination_by (⌈(e - 180) / 360⌉).toNat
decreasing_by
  have h1 : (0 : ℚ) < (e - 180) / 360 := by
    apply div_pos <;> linarith
  have h2 : 1 ≤ ⌈(e - 180) / 360⌉ := Int.ceil_pos.mpr h1
  have h3 : ⌈(e - 360 - 180) / 360⌉ = ⌈(e - 180) / 360⌉ - 1 := by
    rw [show (e - 360 - 180) / 360 = (e - 180) / 360 - 1 by ring]
    exact Int.ceil_sub_one _
  omega

/-- The loop `while error < -180: error += 360` from `calculate_pid_output`
(lines 46-47 of the source). -/
def wrapUp (e : ℚ) : ℚ :=
  if e < -180 then wrapUp (e + 360) else e
termination_by (⌈(-180 - e) / 360⌉).toNat
decreasing_by
  have h1 : (0 : ℚ) < (-180 - e) / 360 := by
    apply div_pos <;> linarith
  have h2 : 1 ≤ ⌈(-180 - e) / 360⌉ := Int.ceil_pos.mpr h1
  have h3 : ⌈(-180 - (e + 360)) / 360⌉ = ⌈(-180 - e) / 360⌉ - 1 := by
    rw [show (-180 - (e + 360)) / 360 = (-180 - e) / 360 - 1 by ring]
    exact Int.ceil_sub_one _
  omega

/-- The error computation of the controller: `desired - current`, then the
two wrapping loops, in the order the source runs them (lines 41-47). -/
def computeError (current desired : ℚ) : ℚ :=
  wrapUp (wrapDown (desired - current))

/-- Python's float `%` for the normalization `current_heading % 360`
(line 80): the remainder carries the sign of the divisor,
`x % m = x - m * floor (x / m)`. -/
def pymod (x m : ℚ) : ℚ :=
  x - m * ⌊x / m⌋

/-- Python's `lst[-n:]`: the last `n` elements of the list. -/
def lastN (n : ℕ) (l : List ℚ) : List ℚ :=
  l.drop (l.length - n)

/-- The state of `SkidSteerPIDSimulator` (its `__init__` fields). -/
structure Sim where
  current_heading : ℚ
  integral : ℚ
  prev_error : ℚ
  start_time : ℚ
  simulation_running : Bool
  dt : ℚ
  time_series : List ℚ
  error_series : List ℚ
  output_series : List ℚ
  heading_series : List ℚ
  desired_series : List ℚ
  max_turn_rate : ℚ
  vehicle_width : ℚ
  kp : ℚ
  ki : ℚ
  kd : ℚ
  desired_heading : ℚ
  deriving DecidableEq, Repr

/-- `__init__` with the wall clock reading `now` for `time.time()`. -/
def initSim (now : ℚ) : Sim where
  current_heading := 0
  integral := 0
  prev_error := 0
  start_time := now
  simulation_running := true
  dt := 1/10
  time_series := []
  error_series := []
  output_series := []
  heading_series := []
  desired_series := []
  max_turn_rate := 45
  vehicle_width := 2
  kp := 1
  ki := 0
  kd := 1/10
  desired_heading := 90

/-- `calculate_pid_output` (lines 38-60): wrapped error, unconditional
integral accumulation, derivative, weighted sum, clamp, and the
`prev_error` update.  Returns the updated state with `(output, error)`. -/
def calculate_pid_output (s : Sim) : Sim × ℚ × ℚ :=
  let error := computeError s.current_heading s.desired_heading
  let integral := s.integral + error * s.dt
  let derivative := (error - s.prev_error) / s.dt
  let output := s.kp * error + s.ki * integral + s.kd * derivative
  let output := max (-s.max_turn_rate) (min s.max_turn_rate output)
  ({ s with integral := integral, prev_error := error }, output, error)

/-- `update_simulation` (lines 62-98).  When paused it recomputes a display
`(output, error)` from the stored state without mutating anything; when
running it performs the full PID step, integrates and normalizes the
heading, appends to the five series and truncates them to the last 500
entries when `time_series` exceeds 500. -/
def update_simulation (s : Sim) (now : ℚ) : Sim × ℚ × ℚ :=
  if s.simulation_running = false then
    let error := computeError s.current_heading s.desired_heading
    let output := s.kp * error + s.ki * s.integral +
      s.kd * (error - s.prev_error) / s.dt
    let output := max (-s.max_turn_rate) (min s.max_turn_rate output)
    (s, output, error)
  else
    let r := calculate_pid_output s
    let s1 := r.1
    let output := r.2.1
    let error := r.2.2
    let heading := pymod (s1.current_heading + output * s1.dt) 360
    let t := now - s1.start_time
    let ts := s1.time_series ++ [t]
    let es := s1.error_series ++ [error]
    let os := s1.output_series ++ [output]
    let hs := s1.heading_series ++ [heading]
    let ds := s1.desired_series ++ [s1.desired_heading]
    if 500 < ts.length then
      ({ s1 with current_heading := heading,
                 time_series := lastN 500 ts,
                 error_series := lastN 500 es,
                 output_series := lastN 500 os,
                 heading_series := lastN 500 hs,
                 desired_series := lastN 500 ds }, output, error)
    else
      ({ s1 with current_heading := heading,
                 time_series := ts,
                 error_series := es,
                 output_series := os,
                 heading_series := hs,
                 desired_series := ds }, output, error)

/-- `reset_simulation` (lines 100-114) with the wall clock reading `now`
for the `time.time()` that restarts `start_time`. -/
def reset_simulation (s : Sim) (now : ℚ) : Sim :=
  { s with current_heading := 0
           integral := 0
           prev_error := 0
           start_time := now
           time_series := []
           error_series := []
           output_series := []
           heading_series := []
           desired_series := [] }

/-- The slider writes in `main` (lines 138-141): the caller overwrites the
gains and the setpoint. -/
def setParams (s : Sim) (kp ki kd desired : ℚ) : Sim :=
  { s with kp := kp, ki := ki, kd := kd, desired_heading := desired }

/-- The Pause/Resume button (line 151): flips `simulation_running`. -/
def togglePause (s : Sim) : Sim :=
  { s with simulation_running := !s.simulation_running }

/-- The states a controller instance can be driven into by the external
driver: construction, ticks, resets, parameter writes and pause toggles,
each with arbitrary wall clock readings. -/
inductive Reachable : Sim → Prop
  | init (now : ℚ) : Reachable (initSim now)
  | tick (s : Sim) (now : ℚ) : Reachable s → Reachable (update_simulation s now).1
  | reset (s : Sim) (now : ℚ) : Reachable s → Reachable (reset_simulation s now)
  | params (s : Sim) (kp ki kd d : ℚ) : Reachable s → Reachable (setParams s kp ki kd d)
  | toggle (s : Sim) : Reachable s → Reachable (togglePause s)

/-- A sequence of consecutive `update_simulation` calls, one per wall clock
reading in `nows`, keeping only the state. -/
def runTicks (s : Sim) (nows : List ℚ) : Sim :=
  nows.foldl (fun s n => (update_simulation s n).1) s

/-- One externally drivable operation on a controller instance, with its
wall clock reading where the source reads `time.time()`. -/
inductive Op where
  | tick : ℚ → Op
  | reset : ℚ → Op
  | params : ℚ → ℚ → ℚ → ℚ → Op
  | toggle : Op
  deriving DecidableEq, Repr

/-- Apply one operation; a tick also yields its `(output, error)` pair. -/
def applyOp (s : Sim) (o : Op) : Sim × Option (ℚ × ℚ) :=
  match o with
  | .tick now => ((update_simulation s now).1, some (update_simulation s now).2)
  | .reset now => (reset_simulation s now, none)
  | .params kp ki kd d => (setParams s kp ki kd d, none)
  | .toggle => (togglePause s, none)

/-- Run a sequence of operations, collecting the final state and the trace
of returned `(output, error)` pairs. -/
def runOps (s : Sim) : List Op → Sim × List (Option (ℚ × ℚ))
  | [] => (s, [])
  | o :: rest =>
    let r := applyOp s o
    let f := runOps r.1 rest
    (f.1, r.2 :: f.2)

/-- A controller state whose five history series already hold 500 samples,
as after 500 Running ticks: used to exercise the eviction path. -/
def fullSim : Sim :=
  { initSim 0 with
    time_series := List.replicate 500 0
    error_series := List.replicate 500 0
    output_series := List.replicate 500 0
    heading_series := List.replicate 500 0
    desired_series := List.replicate 500 0 }

/-! ## Basic lemmas on the wrapping loops and the modulus -/

theorem wrapDown_le (e : ℚ) : wrapDown e ≤ 180 := by
  induction e using wrapDown.induct with
  | case1 e h ih => rw [wrapDown, if_pos h]; exact ih
  | case2 e h => rw [wrapDown, if_neg h]; linarith

theorem wrapDown_ge (e : ℚ) (he : -180 ≤ e) : -180 ≤ wrapDown e := by
  induction e using wrapDown.induct with
  | case1 e h ih => rw [wrapDown, if_pos h]; exact ih (by linarith)
  | case2 e h => rw [wrapDown, if_neg h]; exact he

theorem wrapUp_ge (e : ℚ) : -180 ≤ wrapUp e := by
  induction e using wrapUp.induct with
  | case1 e h ih => rw [wrapUp, if_pos h]; exact ih
  | case2 e h => rw [wrapUp, if_neg h]; linarith

theorem wrapUp_le (e : ℚ) (he : e ≤ 180) : wrapUp e ≤ 180 := by
  induction e using wrapUp.induct with
  | case1 e h ih => rw [wrapUp, if_pos h]; exact ih (by linarith)
  | case2 e h => rw [wrapUp, if_neg h]; exact he

theorem wrapDown_congr (e : ℚ) : ∃ k : ℤ, wrapDown e = e + 360 * k := by
  induction e using wrapDown.induct with
  | case1 e h ih =>
      obtain ⟨k, hk⟩ := ih
      exact ⟨k - 1, by rw [wrapDown, if_pos h, hk]; push_cast; ring⟩
  | case2 e h => exact ⟨0, by rw [wrapDown, if_neg h]; push_cast; ring⟩

theorem wrapUp_congr (e : ℚ) : ∃ k : ℤ, wrapUp e = e + 360 * k := by
  induction e using wrapUp.induct with
  | case1 e h ih =>
      obtain ⟨k, hk⟩ := ih
      exact ⟨k + 1, by rw [wrapUp, if_pos h, hk]; push_cast; ring⟩
  | case2 e h => exact ⟨0, by rw [wrapUp, if_neg h]; push_cast; ring⟩

theorem computeError_ge (c d : ℚ) : -180 ≤ computeError c d :=
  wrapUp_ge _

theorem computeError_le (c d : ℚ) : computeError c d ≤ 180 :=
  wrapUp_le _ (wrapDown_le _)

theorem computeError_congr (c d : ℚ) :
    ∃ k : ℤ, c + computeError c d = d + 360 * k := by
  obtain ⟨k1, h1⟩ := wrapDown_congr (d - c)
  obtain ⟨k2, h2⟩ := wrapUp_congr (wrapDown (d - c))
  exact ⟨k1 + k2, by rw [computeError, h2, h1]; push_cast; ring⟩

theorem pymod_nonneg (x m : ℚ) (hm : 0 < m) : 0 ≤ pymod x m := by
  have h1 : (⌊x / m⌋ : ℚ) * m ≤ x := (le_div_iff₀ hm).mp (Int.floor_le _)
  rw [pymod]; linarith

theorem pymod_lt (x m : ℚ) (hm : 0 < m) : pymod x m < m := by
  have h1 : x < ((⌊x / m⌋ : ℚ) + 1) * m :=
    (div_lt_iff₀ hm).mp (Int.lt_floor_add_one _)
  rw [pymod]; linarith

/-! ## Shape lemmas for `update_simulation` -/

theorem update_frame (s : Sim) (now : ℚ) :
    (update_simulation s now).1.start_time = s.start_time ∧
    (update_simulation s now).1.simulation_running = s.simulation_running ∧
    (update_simulation s now).1.dt = s.dt ∧
    (update_simulation s now).1.max_turn_rate = s.max_turn_rate ∧
    (update_simulation s now).1.vehicle_width = s.vehicle_width ∧
    (update_simulation s now).1.kp = s.kp ∧
    (update_simulation s now).1.ki = s.ki ∧
    (update_simulation s now).1.kd = s.kd ∧
    (update_simulation s now).1.desired_heading = s.desired_heading := by
  rw [update_simulation]
  split
  · exact ⟨rfl, rfl, rfl, rfl, rfl, rfl, rfl, rfl, rfl⟩
  · simp only [calculate_pid_output]
    split <;> exact ⟨rfl, rfl, rfl, rfl, rfl, rfl, rfl, rfl, rfl⟩

theorem update_paused_state (s : Sim) (now : ℚ)
    (h : s.simulation_running = false) : (update_simulation s now).1 = s := by
  rw [update_simulation, if_pos h]

theorem update_output_clamped (s : Sim) (now : ℚ) :
    ∃ r, (update_simulation s now).2.1 =
      max (-s.max_turn_rate) (min s.max_turn_rate r) := by
  rw [update_simulation]
  split
  · exact ⟨_, rfl⟩
  · simp only [calculate_pid_output]
    split <;> exact ⟨_, rfl⟩

theorem update_running_heading (s : Sim) (now : ℚ)
    (h : s.simulation_running = true) :
    ∃ x, (update_simulation s now).1.current_heading = pymod x 360 := by
  rw [update_simulation, if_neg (by simp [h])]
  simp only [calculate_pid_output]
  split <;> exact ⟨_, rfl⟩

/-! ## Invariants of reachable states -/

theorem reachable_const (s : Sim) (h : Reachable s) :
    s.max_turn_rate = 45 ∧ s.dt = 1/10 := by
  induction h with
  | init now => exact ⟨rfl, rfl⟩
  | tick s now _ ih =>
      obtain ⟨_, _, _, h4, _, _, _, _, _⟩ := update_frame s now
      rw [h4, (update_frame s now).2.2.1]
      exact ih
  | reset s now _ ih => exact ih
  | params s kp ki kd d _ ih => exact ih
  | toggle s _ ih => exact ih

theorem reachable_heading (s : Sim) (h : Reachable s) :
    0 ≤ s.current_heading ∧ s.current_heading < 360 := by
  induction h with
  | init now => exact ⟨le_refl 0, by norm_num [initSim]⟩
  | tick s now _ ih =>
      cases hr : s.simulation_running with
      | false => rw [update_paused_state s now hr]; exact ih
      | true =>
          obtain ⟨x, hx⟩ := update_running_heading s now hr
          rw [hx]
          exact ⟨pymod_nonneg x 360 (by norm_num), pymod_lt x 360 (by norm_num)⟩
  | reset s now _ ih => exact ⟨le_refl 0, by norm_num [reset_simulation]⟩
  | params s kp ki kd d _ ih => exact ih
  | toggle s _ ih => exact ih

theorem reachable_series (s : Sim) (h : Reachable s) :
    s.error_series.length = s.time_series.length ∧
    s.output_series.length = s.time_series.length ∧
    s.heading_series.length = s.time_series.length ∧
    s.desired_series.length = s.time_series.length ∧
    s.time_series.length ≤ 500 := by
  induction h with
  | init now => simp [initSim]
  | tick s now _ ih =>
      cases hr : s.simulation_running with
      | false => rw [update_paused_state s now hr]; exact ih
      | true =>
          obtain ⟨h1, h2, h3, h4, h5⟩ := ih
          rw [update_simulation, if_neg (by simp [hr])]
          simp only [calculate_pid_output]
          split
          · simp only [lastN, List.length_append, List.length_drop,
              List.length_cons, List.length_nil]
            omega
          · simp only [List.length_append, List.length_cons, List.length_nil]
            rename_i hlen
            simp only [List.length_append, List.length_cons, List.length_nil] at hlen
            omega
  | reset s now _ ih => simp [reset_simulation]
  | params s kp ki kd d _ ih => exact ih
  | toggle s _ ih => exact ih

theorem reachable_runTicks (s : Sim) (nows : List ℚ) (h : Reachable s) :
    Reachable (runTicks s nows) := by
  induction nows generalizing s with
  | nil => exact h
  | cons n rest ih => exact ih _ (Reachable.tick s n h)

/-! ## Evaluation lemmas for concrete wrap computations -/

theorem lastN_append (n : ℕ) (l : List ℚ) (x : ℚ) (hn : 0 < n)
    (h : l.length = n) : lastN n (l ++ [x]) = l.tail ++ [x] := by
  rw [lastN, List.length_append, List.length_singleton, h,
    show n + 1 - n = 1 by omega,
    List.drop_append_of_le_length (by omega), List.drop_one]

theorem wrapDown_id (e : ℚ) (h : e ≤ 180) : wrapDown e = e := by
  rw [wrapDown, if_neg (by linarith)]

theorem wrapUp_id (e : ℚ) (h : -180 ≤ e) : wrapUp e = e := by
  rw [wrapUp, if_neg (by linarith)]

/-! ## The claims -/

/-- C2, counterexample: at `currentHeading = 180`, `desiredHeading = 0` the
raw difference is exactly `-180`; neither wrapping loop fires (the second
uses a strict `< -180` test), so the controller's wrapped error is `-180`,
which is not in the half-open interval `(-180, 180]` the claim states. -/
theorem claim_C2_counterexample :
    ¬ (-180 < computeError 180 0 ∧ computeError 180 0 ≤ 180) := by
  have h : computeError 180 0 = -180 := by
    rw [computeError, show (0 : ℚ) - 180 = -180 by norm_num,
      wrapDown_id (-180) (by norm_num), wrapUp_id (-180) (by norm_num)]
  rw [h]
  norm_num

/-- C2, amended: for all rational current and desired headings, the wrapped
signed error computed by the controller (desired minus current, then
repeatedly adjusted by 360) lies in the closed interval `[-180, 180]`
(the endpoint `-180` is attainable because the lower wrap test is strict). -/
theorem claim_C2_amended (current desired : ℚ) :
    -180 ≤ computeError current desired ∧ computeError current desired ≤ 180 :=
  ⟨computeError_ge current desired, computeError_le current desired⟩

/-- C2 amended, witness at concrete inputs. -/
theorem claim_C2_amended_witness :
    -180 ≤ computeError 350 10 ∧ computeError 350 10 ≤ 180 :=
  claim_C2_amended 350 10

/-- C3: wrapping changes the raw difference only by multiples of 360, so
`current + computeError current desired` is congruent to `desired` modulo
360; and concretely `computeError 350 10 = 20`, not `-340`. -/
theorem claim_C3 :
    (∀ current desired : ℚ,
      ∃ k : ℤ, current + computeError current desired = desired + 360 * k) ∧
    computeError 350 10 = 20 := by
  refine ⟨computeError_congr, ?_⟩
  rw [computeError, show (10 : ℚ) - 350 = -340 by norm_num,
    wrapDown_id (-340) (by norm_num), wrapUp, if_pos (by norm_num),
    show (-340 : ℚ) + 360 = 20 by norm_num, wrapUp_id 20 (by norm_num)]

/-- C1: on every tick from a reachable state, Running or Paused, the
returned output is clamped into `[-maxOutputRate, +maxOutputRate]`
(`max_turn_rate`, which is 45 in every reachable state). -/
theorem claim_C1 (s : Sim) (now : ℚ) (h : Reachable s) :
    -s.max_turn_rate ≤ (update_simulation s now).2.1 ∧
    (update_simulation s now).2.1 ≤ s.max_turn_rate := by
  obtain ⟨hm, _⟩ := reachable_const s h
  obtain ⟨r, hr⟩ := update_output_clamped s now
  rw [hr, hm]
  exact ⟨le_max_left _ _, max_le (by norm_num) (min_le_left _ _)⟩

/-- C1, witness: the very first tick of a fresh instance. -/
theorem claim_C1_witness :
    -(initSim 0).max_turn_rate ≤ (update_simulation (initSim 0) 0).2.1 ∧
    (update_simulation (initSim 0) 0).2.1 ≤ (initSim 0).max_turn_rate :=
  claim_C1 (initSim 0) 0 (Reachable.init 0)

/-- C4: after any finite sequence of `tick()` calls from any reachable
state, `currentHeading` lies in `[0, 360)` (each Running tick normalizes by
`% 360` and no other operation can leave the interval). -/
theorem claim_C4 (s : Sim) (nows : List ℚ) (h : Reachable s) :
    0 ≤ (runTicks s nows).current_heading ∧
    (runTicks s nows).current_heading < 360 :=
  reachable_heading _ (reachable_runTicks s nows h)

/-- C4, witness: three ticks from a fresh instance. -/
theorem claim_C4_witness :
    0 ≤ (runTicks (initSim 0) [1, 2, 3]).current_heading ∧
    (runTicks (initSim 0) [1, 2, 3]).current_heading < 360 :=
  claim_C4 (initSim 0) [1, 2, 3] (Reachable.init 0)

/-- C5: while the running flag is false, a tick leaves the whole state —
in particular `currentHeading`, `integral`, `prev_error` and the five
history series — unchanged, for any number of consecutive paused ticks,
and still returns the `(output, error)` pair computed from the stored
heading, setpoint, gains, integral and previous error. -/
theorem claim_C5 (s : Sim) (h : s.simulation_running = false) :
    (∀ now, (update_simulation s now).1 = s) ∧
    (∀ nows : List ℚ, runTicks s nows = s) ∧
    (∀ now,
      (update_simulation s now).2.2 =
        computeError s.current_heading s.desired_heading ∧
      (update_simulation s now).2.1 =
        max (-s.max_turn_rate) (min s.max_turn_rate
          (s.kp * computeError s.current_heading s.desired_heading +
           s.ki * s.integral +
           s.kd * (computeError s.current_heading s.desired_heading -
             s.prev_error) / s.dt))) := by
  refine ⟨fun now => update_paused_state s now h, ?_, fun now => ?_⟩
  · intro nows
    induction nows with
    | nil => rfl
    | cons n rest ih =>
        show runTicks (update_simulation s n).1 rest = s
        rw [update_paused_state s n h, ih]
  · rw [update_simulation, if_pos h]
    exact ⟨rfl, rfl⟩

/-- C5, witness: a freshly created instance after one pause toggle. -/
theorem claim_C5_witness :
    (update_simulation (togglePause (initSim 0)) 1).1 = togglePause (initSim 0) ∧
    runTicks (togglePause (initSim 0)) [1, 2, 3] = togglePause (initSim 0) ∧
    (update_simulation (togglePause (initSim 0)) 1).2.2 =
      computeError (togglePause (initSim 0)).current_heading
        (togglePause (initSim 0)).desired_heading :=
  ⟨(claim_C5 _ rfl).1 1, (claim_C5 _ rfl).2.1 [1, 2, 3],
    ((claim_C5 _ rfl).2.2 1).1⟩

/-- C6: every reachable state holds at most 500 samples in each history
series; and whenever a Running tick appends to full (500-sample) series,
the oldest sample is evicted so that exactly the 500 most recent samples
remain, in their original order (`tail ++ [newest]`). -/
theorem claim_C6 :
    (∀ s : Sim, Reachable s →
      s.time_series.length ≤ 500 ∧ s.error_series.length ≤ 500 ∧
      s.output_series.length ≤ 500 ∧ s.heading_series.length ≤ 500 ∧
      s.desired_series.length ≤ 500) ∧
    (∀ (s : Sim) (now : ℚ), s.simulation_running = true →
      s.time_series.length = 500 → s.error_series.length = 500 →
      s.output_series.length = 500 → s.heading_series.length = 500 →
      s.desired_series.length = 500 →
      (update_simulation s now).1.time_series =
        s.time_series.tail ++ [now - s.start_time] ∧
      (update_simulation s now).1.error_series =
        s.error_series.tail ++ [(update_simulation s now).2.2] ∧
      (update_simulation s now).1.output_series =
        s.output_series.tail ++ [(update_simulation s now).2.1] ∧
      (update_simulation s now).1.heading_series =
        s.heading_series.tail ++ [(update_simulation s now).1.current_heading] ∧
      (update_simulation s now).1.desired_series =
        s.desired_series.tail ++ [s.desired_heading] ∧
      (update_simulation s now).1.time_series.length = 500) := by
  constructor
  · intro s h
    obtain ⟨h1, h2, h3, h4, h5⟩ := reachable_series s h
    omega
  · intro s now hr h1 h2 h3 h4 h5
    rw [update_simulation, if_neg (by simp [hr])]
    simp only [calculate_pid_output]
    rw [if_pos (by simp [List.length_append, h1])]
    dsimp only
    refine ⟨?_, ?_, ?_, ?_, ?_, ?_⟩
    · exact lastN_append 500 _ _ (by norm_num) h1
    · exact lastN_append 500 _ _ (by norm_num) h2
    · exact lastN_append 500 _ _ (by norm_num) h3
    · exact lastN_append 500 _ _ (by norm_num) h4
    · exact lastN_append 500 _ _ (by norm_num) h5
    · rw [lastN_append 500 _ _ (by norm_num) h1]
      simp [List.length_append, List.length_tail, h1]

/-- C6, witness: the bound at a fresh instance, and eviction from the
500-sample state `fullSim`. -/
theorem claim_C6_witness :
    ((initSim 0).time_series.length ≤ 500 ∧
     (initSim 0).error_series.length ≤ 500 ∧
     (initSim 0).output_series.length ≤ 500 ∧
     (initSim 0).heading_series.length ≤ 500 ∧
     (initSim 0).desired_series.length ≤ 500) ∧
    ((update_simulation fullSim 7).1.time_series =
       fullSim.time_series.tail ++ [7 - fullSim.start_time] ∧
     (update_simulation fullSim 7).1.error_series =
       fullSim.error_series.tail ++ [(update_simulation fullSim 7).2.2] ∧
     (update_simulation fullSim 7).1.output_series =
       fullSim.output_series.tail ++ [(update_simulation fullSim 7).2.1] ∧
     (update_simulation fullSim 7).1.heading_series =
       fullSim.heading_series.tail ++
         [(update_simulation fullSim 7).1.current_heading] ∧
     (update_simulation fullSim 7).1.desired_series =
       fullSim.desired_series.tail ++ [fullSim.desired_heading] ∧
     (update_simulation fullSim 7).1.time_series.length = 500) :=
  ⟨claim_C6.1 (initSim 0) (Reachable.init 0),
   claim_C6.2 fullSim 7 rfl (List.length_replicate 500 0)
     (List.length_replicate 500 0) (List.length_replicate 500 0)
     (List.length_replicate 500 0) (List.length_replicate 500 0)⟩

/-- C7: `reset_simulation` zeroes `currentHeading`, `integralAccumulator`
and `previousError`, empties the five history series, restarts the elapsed
clock (`start_time` becomes the reset instant), leaves the gains, setpoint
and running flag unchanged, and is idempotent. -/
theorem claim_C7 (s : Sim) (now : ℚ) :
    (reset_simulation s now).current_heading = 0 ∧
    (reset_simulation s now).integral = 0 ∧
    (reset_simulation s now).prev_error = 0 ∧
    (reset_simulation s now).time_series = [] ∧
    (reset_simulation s now).error_series = [] ∧
    (reset_simulation s now).output_series = [] ∧
    (reset_simulation s now).heading_series = [] ∧
    (reset_simulation s now).desired_series = [] ∧
    (reset_simulation s now).start_time = now ∧
    (reset_simulation s now).kp = s.kp ∧
    (reset_simulation s now).ki = s.ki ∧
    (reset_simulation s now).kd = s.kd ∧
    (reset_simulation s now).desired_heading = s.desired_heading ∧
    (reset_simulation s now).simulation_running = s.simulation_running ∧
    reset_simulation (reset_simulation s now) now = reset_simulation s now :=
  ⟨rfl, rfl, rfl, rfl, rfl, rfl, rfl, rfl, rfl, rfl, rfl, rfl, rfl, rfl, rfl⟩

/-- C8: on every Running tick the integral accumulator grows by exactly
`error * dt`, unconditionally (no anti-windup), and the tick's own output
is computed from the already-updated accumulator before clamping. -/
theorem claim_C8 (s : Sim) (now : ℚ) (h : s.simulation_running = true) :
    (update_simulation s now).1.integral =
      s.integral + computeError s.current_heading s.desired_heading * s.dt ∧
    (update_simulation s now).2.1 =
      max (-s.max_turn_rate) (min s.max_turn_rate
        (s.kp * computeError s.current_heading s.desired_heading +
         s.ki * (s.integral +
           computeError s.current_heading s.desired_heading * s.dt) +
         s.kd * ((computeError s.current_heading s.desired_heading -
           s.prev_error) / s.dt))) := by
  rw [update_simulation, if_neg (by simp [h])]
  simp only [calculate_pid_output]
  split <;> exact ⟨rfl, rfl⟩

/-- C8, witness: the first tick of a fresh instance. -/
theorem claim_C8_witness :
    (update_simulation (initSim 0) 0).1.integral =
      (initSim 0).integral +
        computeError (initSim 0).current_heading
          (initSim 0).desired_heading * (initSim 0).dt ∧
    (update_simulation (initSim 0) 0).2.1 =
      max (-(initSim 0).max_turn_rate) (min (initSim 0).max_turn_rate
        ((initSim 0).kp * computeError (initSim 0).current_heading
           (initSim 0).desired_heading +
         (initSim 0).ki * ((initSim 0).integral +
           computeError (initSim 0).current_heading
             (initSim 0).desired_heading * (initSim 0).dt) +
         (initSim 0).kd * ((computeError (initSim 0).current_heading
           (initSim 0).desired_heading -
           (initSim 0).prev_error) / (initSim 0).dt))) :=
  claim_C8 (initSim 0) 0 rfl

/-- C9: from a fresh instance with `kp = 1, ki = 0, kd = 0`,
`desiredHeading = 90`, heading 0 (and `dt = 0.1`, `maxOutputRate = 45`),
the first Running tick returns error 90 and output 45 (raw output 90
clamped to the limit) and leaves `currentHeading = 0 + 45*0.1 = 4.5`. -/
theorem claim_C9 :
    (update_simulation (setParams (initSim 0) 1 0 0 90) 0).2.2 = 90 ∧
    (update_simulation (setParams (initSim 0) 1 0 0 90) 0).2.1 = 45 ∧
    (update_simulation (setParams (initSim 0) 1 0 0 90) 0).1.current_heading
      = 4.5 := by
  have he : computeError 0 90 = 90 := by
    rw [computeError, show (90 : ℚ) - 0 = 90 by norm_num,
      wrapDown_id 90 (by norm_num), wrapUp_id 90 (by norm_num)]
  rw [update_simulation, if_neg (by decide)]
  simp only [calculate_pid_output]
  rw [if_neg (by decide)]
  dsimp only [setParams, initSim]
  rw [he]
  norm_num [pymod]

set_option maxRecDepth 4000 in
theorem update_width (s : Sim) (now w : ℚ) :
    update_simulation { s with vehicle_width := w } now =
      ({ (update_simulation s now).1 with vehicle_width := w },
       (update_simulation s now).2) := by
  cases s with
  | mk ch ig pe st sr dt ts es os hs ds mtr vw kp ki kd dh =>
    simp only [update_simulation, calculate_pid_output]
    split
    · rfl
    · split
      · rfl
      · rfl

theorem applyOp_width (s : Sim) (o : Op) (w : ℚ) :
    applyOp { s with vehicle_width := w } o =
      ({ (applyOp s o).1 with vehicle_width := w }, (applyOp s o).2) := by
  cases o with
  | tick now => simp only [applyOp, update_width]
  | reset now => cases s; rfl
  | params kp ki kd d => cases s; rfl
  | toggle => cases s; rfl

/-- C10: `vehicle_width` is never read by the control law: two instances
whose states differ only in that field return identical `(output, error)`
traces under every sequence of operations (ticks, resets, parameter
writes, pause toggles) and agree on every other state field throughout. -/
theorem claim_C10 (s : Sim) (w : ℚ) (ops : List Op) :
    runOps { s with vehicle_width := w } ops =
      ({ (runOps s ops).1 with vehicle_width := w }, (runOps s ops).2) := by
  induction ops generalizing s with
  | nil => rfl
  | cons o rest ih =>
      simp only [runOps, applyOp_width, ih]

end PidSim
